import Mathlib

/-!
# Verification of the PARSEC request pipeline and on-disk key-info manager

A shallow embedding, in Lean 4, of the core components of the PARSEC
(Platform AbstRaction for SECurity) service:

* the on-disk key-ID manager (`src/service/src/key_id_managers/on_disk_manager/mod.rs`),
  including its base64-url filename encoding, the in-memory `HashMap` state and the
  mapping files on disk;
* the wire codec for response headers
  (`src/interface/interface-rs/src/requests/response.rs`);
* the back-end handler capability check (`src/service/src/back/backend_handler.rs`);
* the front-end authentication and dispatch stage (`src/src/front/front_end.rs`);
* the protobuf converter (`src/interface/interface-rs/src/operations_protobuf/mod.rs`).

Rust strings are modelled as their UTF-8 byte sequences (`List Nat`, each byte
`< 256`); `String::from_utf8` is then the identity embedding.  Fallible code
returns `Option` or `Except`.  The filesystem is modelled as an association list
from mapping-file paths to file contents, and filesystem failures are injected
through an explicit oracle recording whether each primitive call fails.
-/

namespace Parsec

/-! ## Bytes -/

/-- A byte string: the UTF-8 bytes of a Rust `String` or the contents of a file. -/
abbrev Bytes := List Nat

/-- All elements of a byte string are actual bytes. -/
def ValidBytes (l : Bytes) : Prop := ∀ b ∈ l, b < 256

instance : DecidablePred ValidBytes := fun l =>
  inferInstanceAs (Decidable (∀ b ∈ l, b < 256))

/-! ## base64 URL-safe encoding

Model of the external `base64` crate used by the on-disk manager with
`base64::URL_SAFE` (RFC 4648 §5 alphabet, `=` padding): 3-byte groups become 4
alphabet characters; a trailing group of 1 or 2 bytes is padded with `==` or `=`.
The shift/mask arithmetic of the crate is expressed with `/`, `%`, `*`, `+`. -/

/-- Character (ASCII code) for a 6-bit group, URL-safe alphabet `A-Za-z0-9-_`. -/
def b64EncChar (n : Nat) : Nat :=
  if n < 26 then 65 + n
  else if n < 52 then 71 + n
  else if n < 62 then n - 4
  else if n = 62 then 45
  else 95

/-- Inverse of `b64EncChar`: 6-bit value of an alphabet character, `none` outside. -/
def b64DecChar (c : Nat) : Option Nat :=
  if 65 ≤ c ∧ c ≤ 90 then some (c - 65)
  else if 97 ≤ c ∧ c ≤ 122 then some (c - 71)
  else if 48 ≤ c ∧ c ≤ 57 then some (c + 4)
  else if c = 45 then some 62
  else if c = 95 then some 63
  else none

/-- base64-url encode a byte string (with `=` padding), as ASCII codes. -/
def b64Encode : Bytes → Bytes
  | [] => []
  | [a] => [b64EncChar (a / 4), b64EncChar (a % 4 * 16), 61, 61]
  | [a, b] => [b64EncChar (a / 4), b64EncChar (a % 4 * 16 + b / 16),
               b64EncChar (b % 16 * 4), 61]
  | a :: b :: c :: rest =>
      b64EncChar (a / 4) :: b64EncChar (a % 4 * 16 + b / 16) ::
      b64EncChar (b % 16 * 4 + c / 64) :: b64EncChar (c % 64) :: b64Encode rest

/-- base64-url decode (strict padding: `=` only closes the final group). -/
def b64Decode : Bytes → Option Bytes
  | [] => some []
  | c0 :: c1 :: c2 :: c3 :: rest =>
      match b64DecChar c0, b64DecChar c1 with
      | some v0, some v1 =>
          if c2 = 61 then
            if c3 = 61 ∧ rest = [] then some [v0 * 4 + v1 / 16] else none
          else
            match b64DecChar c2 with
            | some v2 =>
                if c3 = 61 then
                  if rest = [] then some [v0 * 4 + v1 / 16, v1 % 16 * 16 + v2 / 4]
                  else none
                else
                  match b64DecChar c3, b64Decode rest with
                  | some v3, some tail =>
                      some ((v0 * 4 + v1 / 16) :: (v1 % 16 * 16 + v2 / 4) ::
                            (v2 % 4 * 64 + v3) :: tail)
                  | _, _ => none
            | none => none
      | _, _ => none
  | _ => none

theorem b64DecChar_encChar (n : Nat) (h : n < 64) :
    b64DecChar (b64EncChar n) = some n := by
  interval_cases n <;> rfl

theorem b64EncChar_ne_61 (n : Nat) : b64EncChar n ≠ 61 := by
  unfold b64EncChar
  split <;> try omega
  split <;> try omega
  split <;> try omega
  split <;> omega

theorem b64Decode_b64Encode (l : Bytes) (hv : ValidBytes l) :
    b64Decode (b64Encode l) = some l := by
  induction l using b64Encode.induct with
  | case1 => rfl
  | case2 a =>
      have ha : a < 256 := hv a (by simp)
      have h0 := b64DecChar_encChar (a / 4) (by omega)
      have h1 := b64DecChar_encChar (a % 4 * 16) (by omega)
      simp [b64Encode, b64Decode, h0, h1]
      omega
  | case3 a b =>
      have ha : a < 256 := hv a (by simp)
      have hb : b < 256 := hv b (by simp)
      have h0 := b64DecChar_encChar (a / 4) (by omega)
      have h1 := b64DecChar_encChar (a % 4 * 16 + b / 16) (by omega)
      have h2 := b64DecChar_encChar (b % 16 * 4) (by omega)
      simp [b64Encode, b64Decode, h0, h1, h2, b64EncChar_ne_61]
      omega
  | case4 a b c rest ih =>
      have ha : a < 256 := hv a (by simp)
      have hb : b < 256 := hv b (by simp)
      have hc : c < 256 := hv c (by simp)
      have hrest : ValidBytes rest := fun x hx => hv x (by simp [hx])
      have h0 := b64DecChar_encChar (a / 4) (by omega)
      have h1 := b64DecChar_encChar (a % 4 * 16 + b / 16) (by omega)
      have h2 := b64DecChar_encChar (b % 16 * 4 + c / 64) (by omega)
      have h3 := b64DecChar_encChar (c % 64) (by omega)
      simp [b64Encode, b64Decode, h0, h1, h2, h3, b64EncChar_ne_61, ih hrest]
      refine ⟨by omega, by omega, by omega⟩

/-! ## Provider identifiers

`ProviderID` from the interface crate (`interface::requests::ProviderID`).  The
snapshot under `src/interface` only lists `CoreProvider = 0`, while the service
code and its tests also use `MbedProvider`; the remaining tags follow the
numeric assignment of spec §6 (`Core=0, MbedCrypto=1, Pkcs11=2, Tpm=3,
TrustedService=4`). -/

inductive ProviderID where
  | CoreProvider
  | MbedProvider
  | Pkcs11Provider
  | TpmProvider
  | TrustedServiceProvider
  deriving DecidableEq, Repr

/-- The numeric tag of a provider (`provider_id as u8`). -/
def ProviderID.toU8 : ProviderID → Nat
  | .CoreProvider => 0
  | .MbedProvider => 1
  | .Pkcs11Provider => 2
  | .TpmProvider => 3
  | .TrustedServiceProvider => 4

/-- `ProviderID::try_from(u8)` from the `FromPrimitive` derive. -/
def ProviderID.tryFrom : Nat → Option ProviderID
  | 0 => some .CoreProvider
  | 1 => some .MbedProvider
  | 2 => some .Pkcs11Provider
  | 3 => some .TpmProvider
  | 4 => some .TrustedServiceProvider
  | _ => none

/-- `u8::to_string`: ASCII decimal digits of a `u8` value (at most three,
no leading zeros). -/
def natToDecimal (n : Nat) : Bytes :=
  if n < 10 then [48 + n]
  else if n < 100 then [48 + n / 10, 48 + n % 10]
  else [48 + n / 100, 48 + n / 10 % 10, 48 + n % 10]

/-- Digit-accumulating loop of `str::parse::<u8>`. -/
def parseDigits : Nat → Bytes → Option Nat
  | acc, [] => some acc
  | acc, c :: rest =>
      if 48 ≤ c ∧ c ≤ 57 then parseDigits (acc * 10 + (c - 48)) rest else none

/-- `str::parse::<u8>`: decimal digits only, value must fit in a `u8`. -/
def parseU8 (l : Bytes) : Option Nat :=
  match l with
  | [] => none
  | _ =>
      match parseDigits 0 l with
      | some v => if v ≤ 255 then some v else none
      | none => none

theorem parseU8_natToDecimal_toU8 (p : ProviderID) :
    parseU8 (natToDecimal p.toU8) = some p.toU8 := by
  cases p <;> simp [ProviderID.toU8, natToDecimal, parseU8, parseDigits]

/-! ## Key triples and mapping paths -/

/-- `KeyTriple` from `src/service/src/key_id_managers`: application name,
provider id and key name; names are modelled as their UTF-8 bytes. -/
structure KeyTriple where
  app_name : Bytes
  provider_id : ProviderID
  key_name : Bytes
  deriving DecidableEq, Repr

/-- A key triple whose names are made of actual bytes (always true of Rust
strings). -/
def KeyTriple.Valid (t : KeyTriple) : Prop :=
  ValidBytes t.app_name ∧ ValidBytes t.key_name

instance : DecidablePred KeyTriple.Valid := fun t =>
  inferInstanceAs (Decidable (ValidBytes t.app_name ∧ ValidBytes t.key_name))

/-- A key identifier: the provider-opaque bytes stored in a mapping file. -/
abbrev KeyId := Bytes

/-- The relative path of a mapping file:
`base64url(app-name) / provider-id-decimal / base64url(key-name)`. -/
abbrev MappingPath := Bytes × Bytes × Bytes

/-- `key_triple_to_base64_filenames`: encodes a KeyTriple's data into base64
strings usable as filenames; the provider id is rendered in decimal. -/
def key_triple_to_base64_filenames (t : KeyTriple) : MappingPath :=
  (b64Encode t.app_name, natToDecimal t.provider_id.toU8, b64Encode t.key_name)

/-- `os_str_to_provider_id`: parses the provider directory name back to a
`ProviderID` (`str::parse::<u8>` then `ProviderID::try_from`). -/
def os_str_to_provider_id (l : Bytes) : Option ProviderID :=
  (parseU8 l).bind ProviderID.tryFrom

/-- `base64_data_triple_to_key_triple`: decodes the three path components back
to a key triple (`base64_data_to_string` on the two names). -/
def base64_data_triple_to_key_triple (app prov key : Bytes) : Option KeyTriple := do
  let a ← b64Decode app
  let p ← os_str_to_provider_id prov
  let k ← b64Decode key
  pure ⟨a, p, k⟩

/-- Decoding a whole mapping path. -/
def decodeMappingPath (p : MappingPath) : Option KeyTriple :=
  base64_data_triple_to_key_triple p.1 p.2.1 p.2.2

theorem ProviderID.tryFrom_toU8 (p : ProviderID) : ProviderID.tryFrom p.toU8 = some p := by
  cases p <;> rfl

/-- Decoding a mapping path is a left inverse of encoding, for triples made of
actual bytes. -/
theorem decodeMappingPath_encode (t : KeyTriple) (hv : t.Valid) :
    decodeMappingPath (key_triple_to_base64_filenames t) = some t := by
  obtain ⟨ha, hk⟩ := hv
  simp [decodeMappingPath, key_triple_to_base64_filenames,
    base64_data_triple_to_key_triple, os_str_to_provider_id,
    b64Decode_b64Encode _ ha, b64Decode_b64Encode _ hk,
    parseU8_natToDecimal_toU8, ProviderID.tryFrom_toU8, Option.bind]

/-- Mapping-path encoding is injective on triples made of actual bytes. -/
theorem key_triple_to_base64_filenames_inj (t₁ t₂ : KeyTriple)
    (h₁ : t₁.Valid) (h₂ : t₂.Valid)
    (h : key_triple_to_base64_filenames t₁ = key_triple_to_base64_filenames t₂) :
    t₁ = t₂ := by
  have e1 := decodeMappingPath_encode t₁ h₁
  have e2 := decodeMappingPath_encode t₂ h₂
  rw [h, e2] at e1
  exact (Option.some.injEq _ _ ▸ e1.symm)

/-! ## Finite maps as association lists

Extensional model of `std::collections::HashMap` (in-memory key store) and of a
directory of mapping files (one entry per file path).  Insertion removes any
previous binding and appends; iteration order is irrelevant to every property
proved below. -/

/-- Look a key up in an association list. -/
def alookup {α β : Type} [DecidableEq α] : List (α × β) → α → Option β
  | [], _ => none
  | (k, v) :: rest, a => if k = a then some v else alookup rest a

/-- Remove every binding of a key from an association list. -/
def aerase {α β : Type} [DecidableEq α] : List (α × β) → α → List (α × β)
  | [], _ => []
  | (k, v) :: rest, a => if k = a then aerase rest a else (k, v) :: aerase rest a

/-- Insert-or-replace a binding (`HashMap::insert`, file create-or-overwrite). -/
def aupsert {α β : Type} [DecidableEq α] (l : List (α × β)) (a : α) (b : β) :
    List (α × β) :=
  aerase l a ++ [(a, b)]

theorem alookup_append {α β : Type} [DecidableEq α]
    (l₁ l₂ : List (α × β)) (a : α) :
    alookup (l₁ ++ l₂) a =
      match alookup l₁ a with
      | some b => some b
      | none => alookup l₂ a := by
  induction l₁ with
  | nil => simp [alookup]
  | cons hd tl ih =>
      obtain ⟨k, v⟩ := hd
      by_cases hk : k = a <;> simp [alookup, hk, ih]

theorem alookup_aerase_self {α β : Type} [DecidableEq α]
    (l : List (α × β)) (a : α) : alookup (aerase l a) a = none := by
  induction l with
  | nil => simp [aerase, alookup]
  | cons hd tl ih =>
      obtain ⟨k, v⟩ := hd
      by_cases hk : k = a <;> simp [aerase, alookup, hk, ih]

theorem alookup_aerase_ne {α β : Type} [DecidableEq α]
    (l : List (α × β)) (a x : α) (hx : x ≠ a) :
    alookup (aerase l a) x = alookup l x := by
  have hax : a ≠ x := Ne.symm hx
  induction l with
  | nil => simp [aerase]
  | cons hd tl ih =>
      obtain ⟨k, v⟩ := hd
      by_cases hk : k = a
      · subst hk
        simp [aerase, alookup, hax, ih]
      · simp [aerase, alookup, hk, ih]

theorem alookup_aupsert_self {α β : Type} [DecidableEq α]
    (l : List (α × β)) (a : α) (b : β) : alookup (aupsert l a b) a = some b := by
  rw [aupsert, alookup_append, alookup_aerase_self]
  simp [alookup]

theorem alookup_aupsert_ne {α β : Type} [DecidableEq α]
    (l : List (α × β)) (a x : α) (b : β) (hx : x ≠ a) :
    alookup (aupsert l a b) x = alookup l x := by
  rw [aupsert, alookup_append, alookup_aerase_ne l a x hx]
  cases h : alookup l x <;> simp [alookup, Ne.symm hx, h]

theorem aerase_of_not_mem {α β : Type} [DecidableEq α]
    (l : List (α × β)) (a : α) (h : alookup l a = none) : aerase l a = l := by
  induction l with
  | nil => rfl
  | cons hd tl ih =>
      obtain ⟨k, v⟩ := hd
      by_cases hk : k = a
      · simp [alookup, hk] at h
      · simp [aerase, alookup, hk] at h ⊢
        exact ih h

/-! ## The on-disk key-ID manager

State, filesystem model and operations of `OnDiskKeyIDManager`
(`src/service/src/key_id_managers/on_disk_manager/mod.rs`). -/

/-- The mappings directory: one entry per mapping file, keyed by relative path. -/
abbrev Disk := List (MappingPath × KeyId)

/-- The in-memory `HashMap<KeyTriple, Vec<u8>>`. -/
abbrev KeyStore := List (KeyTriple × KeyId)

/-- `OnDiskKeyIDManager`: in-memory map plus the mappings directory contents
(the `mappings_dir_path` root is implicit). -/
structure OnDiskKeyIDManager where
  key_store : KeyStore
  disk : Disk
  deriving Repr

/-- Failure oracle for the filesystem primitives used by one mutation:
whether `fs::create_dir_all`, `fs::remove_file`, `File::create` and
`write_all` fail when called. -/
structure FsOracle where
  create_dir_fails : Bool
  remove_fails : Bool
  create_fails : Bool
  write_fails : Bool
  deriving Repr

/-- The oracle under which every filesystem primitive succeeds. -/
def FsOracle.ok : FsOracle := ⟨false, false, false, false⟩

/-- `save_mapping`: create the directories, delete any existing mapping file,
then create the file and write the key id.  Returns the disk state after the
calls that ran (a failure can leave a partial mutation) together with the
`std::io::Result`. -/
def save_mapping (disk : Disk) (t : KeyTriple) (key_id : KeyId) (o : FsOracle) :
    Disk × Except String Unit :=
  let p := key_triple_to_base64_filenames t
  if o.create_dir_fails then (disk, .error "create_dir_all failed")
  else
    let afterRemove : Disk × Except String Unit :=
      if (alookup disk p).isSome then
        if o.remove_fails then (disk, .error "remove_file failed")
        else (aerase disk p, .ok ())
      else (disk, .ok ())
    match afterRemove with
    | (d, .error e) => (d, .error e)
    | (d, .ok ()) =>
        if o.create_fails then (d, .error "File::create failed")
        else if o.write_fails then (aupsert d p [], .error "write_all failed")
        else (aupsert d p key_id, .ok ())

/-- `delete_mapping`: remove the mapping file; do nothing if it does not exist. -/
def delete_mapping (disk : Disk) (t : KeyTriple) (o : FsOracle) :
    Disk × Except String Unit :=
  let p := key_triple_to_base64_filenames t
  if (alookup disk p).isSome then
    if o.remove_fails then (disk, .error "remove_file failed")
    else (aerase disk p, .ok ())
  else (disk, .ok ())

namespace OnDiskKeyIDManager

/-- `ManageKeyIDs::get`. -/
def get (m : OnDiskKeyIDManager) (t : KeyTriple) : Except String (Option KeyId) :=
  .ok (alookup m.key_store t)

/-- `ManageKeyIDs::exists`. -/
def keyExists (m : OnDiskKeyIDManager) (t : KeyTriple) : Except String Bool :=
  .ok (alookup m.key_store t).isSome

/-- `ManageKeyIDs::insert`: save the mapping on disk first; only on success
update the in-memory map, returning the previous binding. -/
def insert (m : OnDiskKeyIDManager) (t : KeyTriple) (key_id : KeyId)
    (o : FsOracle) : OnDiskKeyIDManager × Except String (Option KeyId) :=
  match save_mapping m.disk t key_id o with
  | (disk', .error e) => ({ m with disk := disk' }, .error e)
  | (disk', .ok ()) =>
      ({ key_store := aupsert m.key_store t key_id, disk := disk' },
       .ok (alookup m.key_store t))

/-- `ManageKeyIDs::remove`: delete the mapping file first; only on success
remove from the in-memory map, returning the previous binding. -/
def remove (m : OnDiskKeyIDManager) (t : KeyTriple) (o : FsOracle) :
    OnDiskKeyIDManager × Except String (Option KeyId) :=
  match delete_mapping m.disk t o with
  | (disk', .error e) => ({ m with disk := disk' }, .error e)
  | (disk', .ok ()) =>
      match alookup m.key_store t with
      | some key_id =>
          ({ key_store := aerase m.key_store t, disk := disk' }, .ok (some key_id))
      | none => ({ m with disk := disk' }, .ok none)

/-- The directory walk of `OnDiskKeyIDManager::new`: decode each mapping file's
path into a key triple and insert its contents; files whose path fails to
decode are logged and skipped. -/
def loadDisk (disk : Disk) : KeyStore :=
  disk.foldl
    (fun acc e =>
      match decodeMappingPath e.1 with
      | some t => aupsert acc t e.2
      | none => acc)
    []

/-- `OnDiskKeyIDManager::new` over an already-existing mappings directory
(the successful-read case: every file was opened and read). -/
def new (disk : Disk) : OnDiskKeyIDManager :=
  { key_store := loadDisk disk, disk := disk }

end OnDiskKeyIDManager

/-! ## Claims about the on-disk key-ID manager -/

/-- C1: for every key triple and key id, the disk mutation of `insert`
(`save_mapping`) or `remove` (`delete_mapping`) is what determines the
resulting disk state — it is performed before the in-memory map is touched —
and whenever it fails the operation returns the error and the in-memory map is
left unchanged. -/
theorem insert_remove_mutate_disk_first (m : OnDiskKeyIDManager) (t : KeyTriple)
    (key_id : KeyId) (o : FsOracle) :
    ((m.insert t key_id o).1.disk = (save_mapping m.disk t key_id o).1 ∧
      ∀ e, (save_mapping m.disk t key_id o).2 = .error e →
        (m.insert t key_id o).2 = .error e ∧
        (m.insert t key_id o).1.key_store = m.key_store) ∧
    ((m.remove t o).1.disk = (delete_mapping m.disk t o).1 ∧
      ∀ e, (delete_mapping m.disk t o).2 = .error e →
        (m.remove t o).2 = .error e ∧
        (m.remove t o).1.key_store = m.key_store) := by
  constructor
  · unfold OnDiskKeyIDManager.insert
    rcases hs : save_mapping m.disk t key_id o with ⟨d, r⟩
    cases r with
    | error e => simp
    | ok u => cases u; simp
  · unfold OnDiskKeyIDManager.remove
    rcases hs : delete_mapping m.disk t o with ⟨d, r⟩
    cases r with
    | error e => simp
    | ok u =>
        cases u
        cases hl : alookup m.key_store t <;> simp [hl]

/-- A concrete key triple used by the witnesses: `("alice", MbedProvider, "k")`
with names as UTF-8 bytes. -/
def sampleTriple : KeyTriple :=
  { app_name := [97, 108, 105, 99, 101], provider_id := .MbedProvider,
    key_name := [107] }

/-- A second concrete triple, `("bob", MbedProvider, "k")`. -/
def sampleTriple2 : KeyTriple :=
  { app_name := [98, 111, 98], provider_id := .MbedProvider, key_name := [107] }

/-- Witness for C1: concrete failing `create_dir_all` on insert and failing
`remove_file` on remove. -/
theorem insert_remove_mutate_disk_first_witness :
    (OnDiskKeyIDManager.insert ⟨[], []⟩ sampleTriple [1, 2, 3]
        ⟨true, false, false, false⟩).2 = .error "create_dir_all failed" ∧
    (OnDiskKeyIDManager.insert ⟨[], []⟩ sampleTriple [1, 2, 3]
        ⟨true, false, false, false⟩).1.key_store = [] ∧
    (OnDiskKeyIDManager.remove
        ⟨[(sampleTriple, [7])],
         [(key_triple_to_base64_filenames sampleTriple, [7])]⟩ sampleTriple
        ⟨false, true, false, false⟩).2 = .error "remove_file failed" ∧
    (OnDiskKeyIDManager.remove
        ⟨[(sampleTriple, [7])],
         [(key_triple_to_base64_filenames sampleTriple, [7])]⟩ sampleTriple
        ⟨false, true, false, false⟩).1.key_store = [(sampleTriple, [7])] := by
  refine ⟨?_, ?_, ?_, ?_⟩
  · exact ((insert_remove_mutate_disk_first ⟨[], []⟩ sampleTriple [1, 2, 3]
      ⟨true, false, false, false⟩).1.2 "create_dir_all failed" (by rfl)).1
  · exact ((insert_remove_mutate_disk_first ⟨[], []⟩ sampleTriple [1, 2, 3]
      ⟨true, false, false, false⟩).1.2 "create_dir_all failed" (by rfl)).2
  · exact ((insert_remove_mutate_disk_first
      ⟨[(sampleTriple, [7])],
       [(key_triple_to_base64_filenames sampleTriple, [7])]⟩ sampleTriple [1, 2, 3]
      ⟨false, true, false, false⟩).2.2 "remove_file failed" (by rfl)).1
  · exact ((insert_remove_mutate_disk_first
      ⟨[(sampleTriple, [7])],
       [(key_triple_to_base64_filenames sampleTriple, [7])]⟩ sampleTriple [1, 2, 3]
      ⟨false, true, false, false⟩).2.2 "remove_file failed" (by rfl)).2

/-- C3: after a successful `insert(t, i)`, `get(t)` returns `Some(i)` and the
insert returned the previously stored value; after a successful `remove(t)`,
`get(t)` returns `None`. -/
theorem insert_get_remove_semantics (m : OnDiskKeyIDManager) (t : KeyTriple)
    (key_id : KeyId) (o o' : FsOracle) :
    (∀ m' r, m.insert t key_id o = (m', .ok r) →
        m'.get t = .ok (some key_id) ∧ r = alookup m.key_store t) ∧
    (∀ m' r, m.remove t o' = (m', .ok r) →
        m'.get t = .ok none ∧ r = alookup m.key_store t) := by
  constructor
  · intro m' r h
    unfold OnDiskKeyIDManager.insert at h
    rcases hs : save_mapping m.disk t key_id o with ⟨d, res⟩
    rw [hs] at h
    cases res with
    | error e => simp at h
    | ok u =>
        cases u
        simp only [Prod.mk.injEq, Except.ok.injEq] at h
        obtain ⟨hm, hr⟩ := h
        subst hm
        refine ⟨?_, hr.symm⟩
        simp [OnDiskKeyIDManager.get, alookup_aupsert_self]
  · intro m' r h
    unfold OnDiskKeyIDManager.remove at h
    rcases hs : delete_mapping m.disk t o' with ⟨d, res⟩
    rw [hs] at h
    cases res with
    | error e => simp at h
    | ok u =>
        cases u
        cases hl : alookup m.key_store t with
        | some v =>
            rw [hl] at h
            simp only [Prod.mk.injEq, Except.ok.injEq] at h
            obtain ⟨hm, hr⟩ := h
            subst hm
            refine ⟨?_, hr.symm⟩
            simp [OnDiskKeyIDManager.get, alookup_aerase_self]
        | none =>
            rw [hl] at h
            simp only [Prod.mk.injEq, Except.ok.injEq] at h
            obtain ⟨hm, hr⟩ := h
            subst hm
            exact ⟨by simp [OnDiskKeyIDManager.get, hl], hr.symm⟩

/-- Witness for C3: inserting then removing `("alice", MbedProvider, "k")`
in an empty manager with a fully working filesystem. -/
theorem insert_get_remove_semantics_witness :
    ((OnDiskKeyIDManager.insert ⟨[], []⟩ sampleTriple [1, 2] FsOracle.ok).1.get
        sampleTriple = .ok (some [1, 2])) ∧
    ((OnDiskKeyIDManager.remove
        ⟨[(sampleTriple, [1, 2])],
         [(key_triple_to_base64_filenames sampleTriple, [1, 2])]⟩ sampleTriple
        FsOracle.ok).1.get sampleTriple = .ok none) := by
  constructor
  · exact ((insert_get_remove_semantics ⟨[], []⟩ sampleTriple [1, 2]
      FsOracle.ok FsOracle.ok).1 _ _ rfl).1
  · exact ((insert_get_remove_semantics
      ⟨[(sampleTriple, [1, 2])],
       [(key_triple_to_base64_filenames sampleTriple, [1, 2])]⟩ sampleTriple [1, 2]
      FsOracle.ok FsOracle.ok).2 _ _ rfl).1

/-! ### Persistence across manager instances (C2) -/

/-- The disk entry corresponding to one in-memory binding. -/
def encPair (e : KeyTriple × KeyId) : MappingPath × KeyId :=
  (key_triple_to_base64_filenames e.1, e.2)

/-- `aerase` commutes with the path encoding of a store, when every key is made
of actual bytes. -/
theorem aerase_map_encPair (s : KeyStore) (t : KeyTriple)
    (hval : ∀ e ∈ s, e.1.Valid) (ht : t.Valid) :
    aerase (s.map encPair) (key_triple_to_base64_filenames t) =
      (aerase s t).map encPair := by
  induction s with
  | nil => rfl
  | cons hd tl ih =>
      obtain ⟨k, v⟩ := hd
      have hk : k.Valid := hval (k, v) (by simp)
      have htl : ∀ e ∈ tl, e.1.Valid := fun e he => hval e (by simp [he])
      by_cases hkt : k = t
      · subst hkt
        simp [aerase, encPair, ih htl]
      · have hne : key_triple_to_base64_filenames k ≠
            key_triple_to_base64_filenames t := fun h =>
          hkt (key_triple_to_base64_filenames_inj k t hk ht h)
        simp [aerase, encPair, hne, hkt, ih htl]

/-- `aupsert` commutes with the path encoding of a store. -/
theorem aupsert_map_encPair (s : KeyStore) (t : KeyTriple) (key_id : KeyId)
    (hval : ∀ e ∈ s, e.1.Valid) (ht : t.Valid) :
    aupsert (s.map encPair) (key_triple_to_base64_filenames t) key_id =
      (aupsert s t key_id).map encPair := by
  simp [aupsert, aerase_map_encPair s t hval ht, encPair]

/-- With a fully working filesystem, `save_mapping` succeeds and the mappings
directory's new contents are an insert-or-overwrite of the mapping file. -/
theorem save_mapping_fsOk (disk : Disk) (t : KeyTriple) (key_id : KeyId) :
    save_mapping disk t key_id FsOracle.ok =
      (aupsert disk (key_triple_to_base64_filenames t) key_id, .ok ()) := by
  unfold save_mapping
  cases h : alookup disk (key_triple_to_base64_filenames t) with
  | none => simp [FsOracle.ok, h]
  | some v =>
      simp [FsOracle.ok, h, aupsert,
        aerase_of_not_mem _ _ (alookup_aerase_self disk _)]

/-- With a fully working filesystem, `delete_mapping` succeeds and the mapping
file is gone afterwards (deleting an absent file is a no-op). -/
theorem delete_mapping_fsOk (disk : Disk) (t : KeyTriple) :
    delete_mapping disk t FsOracle.ok =
      (aerase disk (key_triple_to_base64_filenames t), .ok ()) := by
  unfold delete_mapping
  cases h : alookup disk (key_triple_to_base64_filenames t) with
  | none => simp [FsOracle.ok, h, aerase_of_not_mem _ _ h]
  | some v => simp [FsOracle.ok, h]

/-- `insert` under a fully working filesystem: both the map and the disk take
the new binding, and the previous binding is returned. -/
theorem insert_fsOk (m : OnDiskKeyIDManager) (t : KeyTriple) (key_id : KeyId) :
    m.insert t key_id FsOracle.ok =
      ({ key_store := aupsert m.key_store t key_id,
         disk := aupsert m.disk (key_triple_to_base64_filenames t) key_id },
       .ok (alookup m.key_store t)) := by
  unfold OnDiskKeyIDManager.insert
  rw [save_mapping_fsOk]

/-- `remove` under a fully working filesystem: the binding disappears from both
the map and the disk, and the previous binding is returned. -/
theorem remove_fsOk (m : OnDiskKeyIDManager) (t : KeyTriple) :
    m.remove t FsOracle.ok =
      ({ key_store := aerase m.key_store t,
         disk := aerase m.disk (key_triple_to_base64_filenames t) },
       .ok (alookup m.key_store t)) := by
  unfold OnDiskKeyIDManager.remove
  rw [delete_mapping_fsOk]
  cases h : alookup m.key_store t with
  | some v => simp [h]
  | none => simp [h, aerase_of_not_mem _ _ h]

/-- One `insert` or `remove` request against the store. -/
inductive StoreOp where
  | ins (t : KeyTriple) (key_id : KeyId)
  | rem (t : KeyTriple)
  deriving Repr

/-- The key triple named by an operation is made of actual bytes. -/
def StoreOp.ValidOp : StoreOp → Prop
  | .ins t _ => t.Valid
  | .rem t => t.Valid

instance : DecidablePred StoreOp.ValidOp := fun op =>
  match op with
  | .ins t _ => inferInstanceAs (Decidable t.Valid)
  | .rem t => inferInstanceAs (Decidable t.Valid)

/-- Apply one operation under a fully working filesystem, recording whether it
succeeded. -/
def applyOp (m : OnDiskKeyIDManager) : StoreOp → OnDiskKeyIDManager × Bool
  | .ins t key_id =>
      match m.insert t key_id FsOracle.ok with
      | (m', .ok _) => (m', true)
      | (m', .error _) => (m', false)
  | .rem t =>
      match m.remove t FsOracle.ok with
      | (m', .ok _) => (m', true)
      | (m', .error _) => (m', false)

/-- Run a sequence of operations; the boolean records that every one of them
succeeded. -/
def runOps (m : OnDiskKeyIDManager) : List StoreOp → OnDiskKeyIDManager × Bool
  | [] => (m, true)
  | op :: rest =>
      let (m', ok₁) := applyOp m op
      let (m'', ok₂) := runOps m' rest
      (m'', ok₁ && ok₂)

/-- The coherence invariant of the on-disk manager: distinct valid keys in the
in-memory map, and the mappings directory is exactly its image under the
filename encoding. -/
structure Coherent (m : OnDiskKeyIDManager) : Prop where
  nodup : (m.key_store.map Prod.fst).Nodup
  valid : ∀ e ∈ m.key_store, e.1.Valid
  disk_eq : m.disk = m.key_store.map encPair

theorem aerase_keys_sublist {α β : Type} [DecidableEq α]
    (l : List (α × β)) (a : α) :
    ((aerase l a).map Prod.fst).Sublist (l.map Prod.fst) := by
  induction l with
  | nil => simp [aerase]
  | cons hd tl ih =>
      obtain ⟨k, v⟩ := hd
      by_cases hk : k = a
      · simpa [aerase, hk] using ih.cons k
      · simpa [aerase, hk] using ih.cons₂ k

theorem not_mem_keys_aerase {α β : Type} [DecidableEq α]
    (l : List (α × β)) (a : α) : a ∉ (aerase l a).map Prod.fst := by
  induction l with
  | nil => simp [aerase]
  | cons hd tl ih =>
      obtain ⟨k, v⟩ := hd
      by_cases hk : k = a <;> simp [aerase, hk, ih]
      exact fun h => (hk h.symm).elim

theorem mem_of_mem_aerase {α β : Type} [DecidableEq α]
    {l : List (α × β)} {a : α} {e : α × β} (h : e ∈ aerase l a) : e ∈ l := by
  induction l with
  | nil => simp [aerase] at h
  | cons hd tl ih =>
      obtain ⟨k, v⟩ := hd
      by_cases hk : k = a
      · simp only [aerase, if_pos hk] at h
        exact List.mem_cons_of_mem _ (ih h)
      · simp only [aerase, if_neg hk, List.mem_cons] at h
        rcases h with h | h
        · exact h ▸ List.mem_cons_self _ _
        · exact List.mem_cons_of_mem _ (ih h)

theorem coherent_applyOp (m : OnDiskKeyIDManager) (op : StoreOp)
    (hop : op.ValidOp) (h : Coherent m) :
    Coherent (applyOp m op).1 ∧ (applyOp m op).2 = true := by
  cases op with
  | ins t key_id =>
      refine ⟨?_, by simp [applyOp, insert_fsOk]⟩
      simp only [applyOp, insert_fsOk]
      refine ⟨?_, ?_, ?_⟩
      · simp only [aupsert, List.map_append]
        refine List.Nodup.append ?_ (by simp) ?_
        · exact (aerase_keys_sublist m.key_store t).nodup h.nodup
        · intro x hx hx'
          simp at hx'
          rw [hx'] at hx
          exact not_mem_keys_aerase m.key_store t hx
      · intro e he
        simp only [aupsert, List.mem_append, List.mem_singleton] at he
        rcases he with he | he
        · exact h.valid e (mem_of_mem_aerase he)
        · subst he; exact hop
      · rw [h.disk_eq]
        exact aupsert_map_encPair m.key_store t key_id h.valid hop
  | rem t =>
      refine ⟨?_, by simp [applyOp, remove_fsOk]⟩
      simp only [applyOp, remove_fsOk]
      refine ⟨?_, ?_, ?_⟩
      · exact (aerase_keys_sublist m.key_store t).nodup h.nodup
      · exact fun e he => h.valid e (mem_of_mem_aerase he)
      · rw [h.disk_eq]
        exact aerase_map_encPair m.key_store t h.valid hop

theorem coherent_runOps (ops : List StoreOp) (m : OnDiskKeyIDManager)
    (hops : ∀ op ∈ ops, op.ValidOp) (h : Coherent m) :
    Coherent (runOps m ops).1 ∧ (runOps m ops).2 = true := by
  induction ops generalizing m with
  | nil => exact ⟨h, rfl⟩
  | cons op rest ih =>
      have hstep := coherent_applyOp m op (hops op (by simp)) h
      have hrest := ih (applyOp m op).1 (fun o ho => hops o (by simp [ho]))
        hstep.1
      simp only [runOps]
      constructor
      · exact hrest.1
      · simp [hstep.2, hrest.2]

/-- The directory walk of `new` rebuilds exactly a coherently stored map. -/
theorem loadDisk_map_encPair (s : KeyStore) (acc : KeyStore)
    (hval : ∀ e ∈ s, e.1.Valid) (hnd : (s.map Prod.fst).Nodup)
    (hdisj : ∀ e ∈ s, alookup acc e.1 = none) :
    (s.map encPair).foldl
      (fun acc e =>
        match decodeMappingPath e.1 with
        | some t => aupsert acc t e.2
        | none => acc)
      acc = acc ++ s := by
  induction s generalizing acc with
  | nil => simp
  | cons hd tl ih =>
      obtain ⟨t, c⟩ := hd
      have ht : t.Valid := hval (t, c) (by simp)
      have htl : ∀ e ∈ tl, e.1.Valid := fun e he => hval e (by simp [he])
      have hacc : alookup acc t = none := hdisj (t, c) (by simp)
      simp only [List.map_cons, List.foldl_cons, encPair,
        decodeMappingPath_encode t ht]
      have hstep : aupsert acc t c = acc ++ [(t, c)] := by
        simp [aupsert, aerase_of_not_mem acc t hacc]
      rw [hstep]
      rw [ih (acc ++ [(t, c)]) htl (by rw [List.map_cons] at hnd; exact hnd.of_cons) ?_]
      · simp
      · intro e he
        rw [alookup_append, hdisj e (by simp [he])]
        rw [List.map_cons] at hnd
        have htnotin : t ∉ tl.map Prod.fst := (List.nodup_cons.mp hnd).1
        have hne : t ≠ e.1 := fun het =>
          htnotin (het ▸ List.mem_map_of_mem Prod.fst he)
        simp [alookup, hne]

/-- C2: running any sequence of insert/remove operations from a fresh manager
over an empty directory (with a working filesystem) makes every operation
succeed, and a new manager constructed over the resulting directory loads
exactly the same triple-to-key-id map the prior manager held. -/
theorem persistence_reload (ops : List StoreOp)
    (hops : ∀ op ∈ ops, op.ValidOp) :
    (runOps ⟨[], []⟩ ops).2 = true ∧
    (OnDiskKeyIDManager.new (runOps ⟨[], []⟩ ops).1.disk).key_store =
      (runOps ⟨[], []⟩ ops).1.key_store := by
  have h0 : Coherent ⟨[], []⟩ := ⟨by simp, by simp, by simp⟩
  have h := coherent_runOps ops ⟨[], []⟩ hops h0
  refine ⟨h.2, ?_⟩
  have hc := h.1
  rw [OnDiskKeyIDManager.new, hc.disk_eq]
  show OnDiskKeyIDManager.loadDisk _ = _
  rw [OnDiskKeyIDManager.loadDisk]
  rw [loadDisk_map_encPair _ [] hc.valid hc.nodup (by simp [alookup])]
  simp

/-- Witness for C2: insert two triples, overwrite one, remove one; reloading
from the resulting directory yields the same map. -/
theorem persistence_reload_witness :
    (runOps ⟨[], []⟩
        [.ins sampleTriple [1], .ins sampleTriple2 [2], .ins sampleTriple [3],
         .rem sampleTriple2]).2 = true ∧
    (OnDiskKeyIDManager.new
        (runOps ⟨[], []⟩
          [.ins sampleTriple [1], .ins sampleTriple2 [2], .ins sampleTriple [3],
           .rem sampleTriple2]).1.disk).key_store =
      (runOps ⟨[], []⟩
        [.ins sampleTriple [1], .ins sampleTriple2 [2], .ins sampleTriple [3],
         .rem sampleTriple2]).1.key_store :=
  persistence_reload
    [.ins sampleTriple [1], .ins sampleTriple2 [2], .ins sampleTriple [3],
     .rem sampleTriple2]
    (by intro op hop; fin_cases hop <;> decide)

/-- C10: removing a key triple that is absent from the in-memory map and has no
mapping file on disk succeeds, returns `None`, and leaves the manager (both the
map and the mappings directory) unchanged, whatever the filesystem would have
done: deleting an absent mapping file is a no-op, not an error. -/
theorem remove_absent_key_is_noop (m : OnDiskKeyIDManager) (t : KeyTriple)
    (o : FsOracle)
    (hmem : alookup m.key_store t = none)
    (hdisk : alookup m.disk (key_triple_to_base64_filenames t) = none) :
    m.remove t o = (m, .ok none) := by
  simp [OnDiskKeyIDManager.remove, delete_mapping, hdisk, hmem]

/-- Witness for C10: removing `("bob", MbedProvider, "k")` from a manager that
only holds `("alice", MbedProvider, "k")`, under a filesystem whose
`remove_file` would fail if it were called. -/
theorem remove_absent_key_is_noop_witness :
    alookup ([(sampleTriple, [7])] : KeyStore) sampleTriple2 = none ∧
    alookup ([(key_triple_to_base64_filenames sampleTriple, [7])] : Disk)
      (key_triple_to_base64_filenames sampleTriple2) = none ∧
    OnDiskKeyIDManager.remove
        ⟨[(sampleTriple, [7])],
         [(key_triple_to_base64_filenames sampleTriple, [7])]⟩ sampleTriple2
        ⟨false, true, false, false⟩ =
      (⟨[(sampleTriple, [7])],
        [(key_triple_to_base64_filenames sampleTriple, [7])]⟩, .ok none) :=
  ⟨by rfl, by rfl,
   remove_absent_key_is_noop
     ⟨[(sampleTriple, [7])], [(key_triple_to_base64_filenames sampleTriple, [7])]⟩
     sampleTriple2 ⟨false, true, false, false⟩ (by rfl) (by rfl)⟩

/-! ## Little-endian integers and streams -/

/-- Serialise a value on `w` little-endian bytes (truncating modulo `256 ^ w`,
as machine integers do). -/
def natToBytesLE : Nat → Nat → Bytes
  | 0, _ => []
  | w + 1, n => n % 256 :: natToBytesLE w (n / 256)

/-- Read a little-endian value from bytes. -/
def bytesToNatLE (l : Bytes) : Nat := l.foldr (fun b acc => b + acc * 256) 0

theorem natToBytesLE_length (w n : Nat) : (natToBytesLE w n).length = w := by
  induction w generalizing n with
  | zero => rfl
  | succ w ih => simp [natToBytesLE, ih]

theorem bytesToNatLE_natToBytesLE (w n : Nat) (h : n < 256 ^ w) :
    bytesToNatLE (natToBytesLE w n) = n := by
  induction w generalizing n with
  | zero => simp at h; simp [natToBytesLE, bytesToNatLE, h]
  | succ w ih =>
      have hlt : n / 256 < 256 ^ w := by
        rw [Nat.div_lt_iff_lt_mul (by omega)]
        calc n < 256 ^ (w + 1) := h
        _ = 256 ^ w * 256 := by ring
      simp only [natToBytesLE, bytesToNatLE, List.foldr_cons]
      have := ih (n / 256) hlt
      simp only [bytesToNatLE] at this
      rw [this]
      omega

/-- `Read::read_exact` into a buffer of `n` bytes: the bytes read and the rest
of the stream, or failure if the stream is too short. -/
def readBytes (n : Nat) (s : Bytes) : Option (Bytes × Bytes) :=
  if n ≤ s.length then some (s.take n, s.drop n) else none

theorem readBytes_exact (s t : Bytes) (n : Nat) (h : s.length = n) :
    readBytes n (s ++ t) = some (s, t) := by
  subst h
  simp [readBytes, List.take_left, List.drop_left]

/-! ## Response codec

`ResponseHeader`, `ResponseBody` and `Response` from
`src/interface/interface-rs/src/requests/response.rs`.  The serialised header
is `magic_number` (4 bytes) and `hdr_size` (2 bytes) — both private constants,
checked on read — followed by the 20 bytes of the remaining fields, all
little-endian (`bincode` with fixed-width integers). -/

/-- `MAGIC_NUMBER` from `src/interface/interface-rs/src/requests/mod.rs`. -/
def MAGIC_NUMBER : Nat := 0x5EC0A710

/-- `RESPONSE_HDR_SIZE`. -/
def RESPONSE_HDR_SIZE : Nat := 20

/-- The public fields of `ResponseHeader`; the private `magic_number` and
`hdr_size` fields always hold the checked constants and are left implicit. -/
structure ResponseHeader where
  version_maj : Nat
  version_min : Nat
  provider : Nat
  session : Nat
  content_type : Nat
  body_len : Nat
  opcode : Nat
  status : Nat
  deriving DecidableEq, Repr

/-- All fields fit their wire widths (`u8`/`u64`/`u32`/`u16`). -/
def ResponseHeader.WF (h : ResponseHeader) : Prop :=
  h.version_maj < 256 ∧ h.version_min < 256 ∧ h.provider < 256 ∧
  h.session < 256 ^ 8 ∧ h.content_type < 256 ∧ h.body_len < 256 ^ 4 ∧
  h.opcode < 256 ^ 2 ∧ h.status < 256 ^ 2

instance : DecidablePred ResponseHeader.WF := fun h =>
  inferInstanceAs (Decidable (h.version_maj < 256 ∧ _ ∧ _ ∧ _ ∧ _ ∧ _ ∧ _ ∧ _))

/-- The 20 serialised bytes of the non-constant fields, in declaration order,
little-endian. -/
def serializeFields (h : ResponseHeader) : Bytes :=
  natToBytesLE 1 h.version_maj ++ (natToBytesLE 1 h.version_min ++
  (natToBytesLE 1 h.provider ++ (natToBytesLE 8 h.session ++
  (natToBytesLE 1 h.content_type ++ (natToBytesLE 4 h.body_len ++
  (natToBytesLE 2 h.opcode ++ natToBytesLE 2 h.status))))))

/-- `bincode::serialize` of the header: the two constants then every public
field in declaration order, little-endian. -/
def ResponseHeader.write_to_stream (h : ResponseHeader) : Bytes :=
  natToBytesLE 4 MAGIC_NUMBER ++ (natToBytesLE 2 RESPONSE_HDR_SIZE ++
  serializeFields h)

/-- `bincode::deserialize` of the 20-byte field buffer (the two skipped fields
are reinstated by the caller). -/
def deserializeHeaderFields (b : Bytes) : Option ResponseHeader := do
  let (vmaj, b) ← readBytes 1 b
  let (vmin, b) ← readBytes 1 b
  let (prov, b) ← readBytes 1 b
  let (sess, b) ← readBytes 8 b
  let (ct, b) ← readBytes 1 b
  let (blen, b) ← readBytes 4 b
  let (opc, b) ← readBytes 2 b
  let (st, _) ← readBytes 2 b
  pure ⟨bytesToNatLE vmaj, bytesToNatLE vmin, bytesToNatLE prov,
        bytesToNatLE sess, bytesToNatLE ct, bytesToNatLE blen,
        bytesToNatLE opc, bytesToNatLE st⟩

/-- The two `std::io` failure kinds of the response codec: `InvalidData`
(bad magic, bad header size, or unmarshalling failure) and a propagated read
error (e.g. end of stream). -/
inductive IoErrorKind where
  | invalidData
  | readError
  deriving DecidableEq, Repr

/-- `ResponseHeader::read_from_stream`: read the magic number and header size,
reject the frame if either differs from its constant, then read `hdr_size`
bytes and unmarshal the remaining fields from them.  Returns the header and the
unconsumed stream. -/
def ResponseHeader.read_from_stream (s : Bytes) :
    Except IoErrorKind (ResponseHeader × Bytes) :=
  match readBytes 4 s with
  | none => .error .readError
  | some (magic, s1) =>
      match readBytes 2 s1 with
      | none => .error .readError
      | some (hs, s2) =>
          if bytesToNatLE magic ≠ MAGIC_NUMBER ∨
             bytesToNatLE hs ≠ RESPONSE_HDR_SIZE then .error .invalidData
          else
            match readBytes (bytesToNatLE hs) s2 with
            | none => .error .readError
            | some (buf, s3) =>
                match deserializeHeaderFields buf with
                | some hdr => .ok (hdr, s3)
                | none => .error .invalidData

/-! ## Response statuses

Modelled from the spec: the `ResponseStatus` enumeration itself is not under
`src/` (only used there); §6 fixes a dense numeric space with `Success = 0`
and lists the remaining names, which are numbered here in that order. -/

inductive ResponseStatus where
  | Success
  | WrongProviderID
  | ContentTypeNotSupported
  | AcceptTypeNotSupported
  | VersionTooBig
  | ProviderNotRegistered
  | DeserializingBodyFailed
  | SerializingBodyFailed
  | AuthenticatorNotRegistered
  | AuthenticationError
  | BodyLenTooLarge
  | KeyDoesNotExist
  | KeyAlreadyExists
  | PsaErrorGenericError
  | InvalidHeader
  deriving DecidableEq, Repr

/-- `num::FromPrimitive::from_u16` for `ResponseStatus`. -/
def ResponseStatus.fromU16 (n : Nat) : Option ResponseStatus :=
  if n = 0 then some .Success
  else if n = 1 then some .WrongProviderID
  else if n = 2 then some .ContentTypeNotSupported
  else if n = 3 then some .AcceptTypeNotSupported
  else if n = 4 then some .VersionTooBig
  else if n = 5 then some .ProviderNotRegistered
  else if n = 6 then some .DeserializingBodyFailed
  else if n = 7 then some .SerializingBodyFailed
  else if n = 8 then some .AuthenticatorNotRegistered
  else if n = 9 then some .AuthenticationError
  else if n = 10 then some .BodyLenTooLarge
  else if n = 11 then some .KeyDoesNotExist
  else if n = 12 then some .KeyAlreadyExists
  else if n = 13 then some .PsaErrorGenericError
  else if n = 14 then some .InvalidHeader
  else none

/-- `ResponseHeader::status`: converts the raw `status` field through
`FromPrimitive`; the source panics when the wire value is outside the
enumerated range — the panic is modelled as `none`. -/
def ResponseHeader.statusAccessor (h : ResponseHeader) : Option ResponseStatus :=
  ResponseStatus.fromU16 h.status

theorem readBytes_all (s : Bytes) (n : Nat) (h : s.length = n) :
    readBytes n s = some (s, []) := by
  subst h
  simp [readBytes]

/-- Unmarshalling the 20 field bytes recovers every field. -/
theorem deserializeHeaderFields_serializeFields (h : ResponseHeader)
    (hwf : h.WF) : deserializeHeaderFields (serializeFields h) = some h := by
  obtain ⟨h1, h2, h3, h4, h5, h6, h7, h8⟩ := hwf
  have e1 : bytesToNatLE (natToBytesLE 1 h.version_maj) = h.version_maj :=
    bytesToNatLE_natToBytesLE 1 _ (by simpa using h1)
  have e2 : bytesToNatLE (natToBytesLE 1 h.version_min) = h.version_min :=
    bytesToNatLE_natToBytesLE 1 _ (by simpa using h2)
  have e3 : bytesToNatLE (natToBytesLE 1 h.provider) = h.provider :=
    bytesToNatLE_natToBytesLE 1 _ (by simpa using h3)
  have e4 : bytesToNatLE (natToBytesLE 8 h.session) = h.session :=
    bytesToNatLE_natToBytesLE 8 _ h4
  have e5 : bytesToNatLE (natToBytesLE 1 h.content_type) = h.content_type :=
    bytesToNatLE_natToBytesLE 1 _ (by simpa using h5)
  have e6 : bytesToNatLE (natToBytesLE 4 h.body_len) = h.body_len :=
    bytesToNatLE_natToBytesLE 4 _ h6
  have e7 : bytesToNatLE (natToBytesLE 2 h.opcode) = h.opcode :=
    bytesToNatLE_natToBytesLE 2 _ h7
  have e8 : bytesToNatLE (natToBytesLE 2 h.status) = h.status :=
    bytesToNatLE_natToBytesLE 2 _ h8
  simp [deserializeHeaderFields, serializeFields, readBytes_exact, readBytes_all,
    natToBytesLE_length, e1, e2, e3, e4, e5, e6, e7, e8]

theorem serializeFields_length (h : ResponseHeader) :
    (serializeFields h).length = RESPONSE_HDR_SIZE := by
  simp [serializeFields, natToBytesLE_length, RESPONSE_HDR_SIZE]

/-- Decoding inverts encoding for any well-formed header, consuming exactly the
26 serialised bytes. -/
theorem read_from_stream_write_to_stream (h : ResponseHeader) (hwf : h.WF)
    (rest : Bytes) :
    ResponseHeader.read_from_stream (h.write_to_stream ++ rest) =
      .ok (h, rest) := by
  have em : bytesToNatLE (natToBytesLE 4 MAGIC_NUMBER) = MAGIC_NUMBER :=
    bytesToNatLE_natToBytesLE 4 _ (by norm_num [MAGIC_NUMBER])
  have eh : bytesToNatLE (natToBytesLE 2 RESPONSE_HDR_SIZE) = RESPONSE_HDR_SIZE :=
    bytesToNatLE_natToBytesLE 2 _ (by norm_num [RESPONSE_HDR_SIZE])
  rw [ResponseHeader.write_to_stream, List.append_assoc, List.append_assoc,
    ResponseHeader.read_from_stream]
  simp [readBytes_exact, natToBytesLE_length, em, eh, serializeFields_length,
    deserializeHeaderFields_serializeFields h hwf]

/-- C5: response-header decoding examines only the six fixed bytes — the
4-byte magic number and the 2-byte header size — and rejects the frame with an
`InvalidData` protocol error when either differs from its constant, whatever
bytes follow (so no further field is read). -/
theorem decode_rejects_bad_magic_or_hdr_size (magic hs rest : Bytes)
    (hm : magic.length = 4) (hh : hs.length = 2)
    (hbad : bytesToNatLE magic ≠ MAGIC_NUMBER ∨
            bytesToNatLE hs ≠ RESPONSE_HDR_SIZE) :
    ResponseHeader.read_from_stream (magic ++ (hs ++ rest)) =
      .error .invalidData := by
  rw [ResponseHeader.read_from_stream]
  simp only [readBytes_exact, hm, hh]
  rw [if_pos hbad]

/-- Witness for C5: a frame starting with four zero bytes (wrong magic), and a
frame with good magic but header size 21. -/
theorem decode_rejects_bad_magic_or_hdr_size_witness :
    ResponseHeader.read_from_stream
      ([0, 0, 0, 0] ++ ([20, 0] ++ [1, 2, 3])) = .error .invalidData ∧
    ResponseHeader.read_from_stream
      ([0x10, 0xA7, 0xC0, 0x5E] ++ ([21, 0] ++ [9, 9])) = .error .invalidData :=
  ⟨decode_rejects_bad_magic_or_hdr_size [0, 0, 0, 0] [20, 0] [1, 2, 3]
      (by rfl) (by rfl) (by left; decide),
   decode_rejects_bad_magic_or_hdr_size [0x10, 0xA7, 0xC0, 0x5E] [21, 0] [9, 9]
      (by rfl) (by rfl) (by right; decide)⟩

/-- C9 (counterexample): a response frame whose `status` wire value `0xFFFF`
is outside the enumerated range is accepted by decoding — no error status is
produced — and the `ResponseHeader::status` accessor then panics on it
(modelled as `none`), contradicting "invalid input (including a status …
outside the enumerated range) produces an error status rather than a panic". -/
theorem status_out_of_range_decodes_then_panics :
    ResponseHeader.read_from_stream
        (ResponseHeader.write_to_stream ⟨1, 0, 0, 0, 0, 0, 0, 65535⟩) =
      .ok (⟨1, 0, 0, 0, 0, 0, 0, 65535⟩, []) ∧
    (⟨1, 0, 0, 0, 0, 0, 0, 65535⟩ : ResponseHeader).statusAccessor = none := by
  constructor
  · have := read_from_stream_write_to_stream ⟨1, 0, 0, 0, 0, 0, 0, 65535⟩
      (by decide) []
    simpa using this
  · rfl

/-- C9 (amended): frame decoding itself never panics — it accepts every
status wire value, valid or not — and the `status` accessor panics exactly on
the wire values outside the enumerated range. -/
theorem decode_total_status_accessor_panics_off_range :
    (∀ s : Nat, s < 65536 →
      ResponseHeader.read_from_stream
          (ResponseHeader.write_to_stream ⟨0, 0, 0, 0, 0, 0, 0, s⟩) =
        .ok (⟨0, 0, 0, 0, 0, 0, 0, s⟩, [])) ∧
    (∀ n : Nat, ResponseStatus.fromU16 n = none ↔ 15 ≤ n) := by
  constructor
  · intro s hs
    have := read_from_stream_write_to_stream ⟨0, 0, 0, 0, 0, 0, 0, s⟩
      ⟨by norm_num, by norm_num, by norm_num, by norm_num, by norm_num,
       by norm_num, by norm_num, lt_of_lt_of_le hs (by norm_num)⟩ []
    simpa using this
  · intro n
    rcases Nat.lt_or_ge n 15 with h | h
    · interval_cases n <;> simp [ResponseStatus.fromU16]
    · have h0 : n ≠ 0 := by omega
      have h1 : n ≠ 1 := by omega
      have h2 : n ≠ 2 := by omega
      have h3 : n ≠ 3 := by omega
      have h4 : n ≠ 4 := by omega
      have h5 : n ≠ 5 := by omega
      have h6 : n ≠ 6 := by omega
      have h7 : n ≠ 7 := by omega
      have h8 : n ≠ 8 := by omega
      have h9 : n ≠ 9 := by omega
      have h10 : n ≠ 10 := by omega
      have h11 : n ≠ 11 := by omega
      have h12 : n ≠ 12 := by omega
      have h13 : n ≠ 13 := by omega
      have h14 : n ≠ 14 := by omega
      simp [ResponseStatus.fromU16, h0, h1, h2, h3, h4, h5, h6, h7, h8, h9,
        h10, h11, h12, h13, h14, h]

/-- Witness for C9's amended theorem: the frame with status 0 decodes, and
status code 20 (out of range) has no enum value while 0 does. -/
theorem decode_total_status_accessor_panics_off_range_witness :
    ResponseHeader.read_from_stream
        (ResponseHeader.write_to_stream ⟨0, 0, 0, 0, 0, 0, 0, 0⟩) =
      .ok (⟨0, 0, 0, 0, 0, 0, 0, 0⟩, []) ∧
    ResponseStatus.fromU16 20 = none :=
  ⟨decode_total_status_accessor_panics_off_range.1 0 (by norm_num),
   (decode_total_status_accessor_panics_off_range.2 20).mpr (by norm_num)⟩

/-! ## Requests, back-end handler and capability check

`BackEndHandler::is_capable` from `src/service/src/back/backend_handler.rs`.
The request header type itself (`requests/request.rs`) is not under `src/`;
its fields are modelled from their use in `is_capable` and the wire layout of
spec §3/§6. -/

/-- `BodyType` from `src/interface/interface-rs/src/requests/mod.rs`:
`Protobuf = 0` is the sole encoding. -/
inductive BodyType where
  | Protobuf
  deriving DecidableEq, Repr

/-- `AuthType` of the front-end handler under `src/src` (spec §6:
`NoAuth = 0, Direct = 1, UnixPeerCredentials = 2`). -/
inductive AuthType where
  | NoAuth
  | Direct
  | UnixPeerCredentials
  deriving DecidableEq, Repr

/-- Modelled from the spec: the decoded `RequestHeader` (its source file
`requests/request.rs` is not under `src/`); fields from spec §3 as used by
`is_capable` and the front-end handler. -/
structure RequestHeader where
  version_maj : Nat
  version_min : Nat
  provider : ProviderID
  session : Nat
  content_type : BodyType
  accept_type : BodyType
  auth_type : AuthType
  body_len : Nat
  auth_len : Nat
  opcode : Nat
  deriving DecidableEq, Repr

/-- A decoded request: header plus opaque body and authentication bytes. -/
structure Request where
  header : RequestHeader
  body : Bytes
  auth : Bytes
  deriving DecidableEq, Repr

/-- The configuration fields of `BackEndHandler` that `is_capable` reads. -/
structure BackEndHandler where
  provider_id : ProviderID
  content_type : BodyType
  accept_type : BodyType
  version_min : Nat
  version_maj : Nat
  deriving DecidableEq, Repr

/-- `BackEndHandler::is_capable`: reject mismatching provider, content type or
accept type, then reject a header version strictly above the configured one. -/
def BackEndHandler.is_capable (h : BackEndHandler) (request : Request) :
    Except ResponseStatus Unit :=
  let header := request.header
  if header.provider ≠ h.provider_id then .error .WrongProviderID
  else if header.content_type ≠ h.content_type then .error .ContentTypeNotSupported
  else if header.accept_type ≠ h.accept_type then .error .AcceptTypeNotSupported
  else if header.version_maj > h.version_maj ∨
          (header.version_maj = h.version_maj ∧
           header.version_min > h.version_min) then .error .VersionTooBig
  else .ok ()

/-- C4: when provider, content type and accept type all match the handler's
configuration, `is_capable` fails exactly on header versions strictly
dominating the configured `(maj, min)` tuple, and then with `VersionTooBig`;
any version not exceeding the tuple is accepted. -/
theorem is_capable_version_check (h : BackEndHandler) (request : Request)
    (hp : request.header.provider = h.provider_id)
    (hc : request.header.content_type = h.content_type)
    (ha : request.header.accept_type = h.accept_type) :
    (h.is_capable request = .error .VersionTooBig ↔
      (request.header.version_maj > h.version_maj ∨
       (request.header.version_maj = h.version_maj ∧
        request.header.version_min > h.version_min))) ∧
    (¬(request.header.version_maj > h.version_maj ∨
       (request.header.version_maj = h.version_maj ∧
        request.header.version_min > h.version_min)) →
      h.is_capable request = .ok ()) := by
  unfold BackEndHandler.is_capable
  constructor
  · constructor
    · intro heq
      by_contra hdom
      simp [hp, hc, ha, hdom] at heq
    · intro hdom
      simp [hp, hc, ha, hdom]
  · intro hdom
    simp [hp, hc, ha, hdom]

/-- Witness for C4: a handler configured at version `(1, 0)` rejects a request
at `(1, 1)` with `VersionTooBig` and accepts one at `(1, 0)` (the spec's
version-too-big scenario). -/
theorem is_capable_version_check_witness :
    BackEndHandler.is_capable
        ⟨.CoreProvider, .Protobuf, .Protobuf, 0, 1⟩
        ⟨⟨1, 1, .CoreProvider, 0, .Protobuf, .Protobuf, .NoAuth, 0, 0, 0⟩, [], []⟩ =
      .error .VersionTooBig ∧
    BackEndHandler.is_capable
        ⟨.CoreProvider, .Protobuf, .Protobuf, 0, 1⟩
        ⟨⟨1, 0, .CoreProvider, 0, .Protobuf, .Protobuf, .NoAuth, 0, 0, 0⟩, [], []⟩ =
      .ok () :=
  ⟨((is_capable_version_check ⟨.CoreProvider, .Protobuf, .Protobuf, 0, 1⟩
      ⟨⟨1, 1, .CoreProvider, 0, .Protobuf, .Protobuf, .NoAuth, 0, 0, 0⟩, [], []⟩
      rfl rfl rfl).1).mpr (by right; exact ⟨rfl, by norm_num⟩),
   (is_capable_version_check ⟨.CoreProvider, .Protobuf, .Protobuf, 0, 1⟩
      ⟨⟨1, 0, .CoreProvider, 0, .Protobuf, .Protobuf, .NoAuth, 0, 0, 0⟩, [], []⟩
      rfl rfl rfl).2 (by simp)⟩

/-! ## Front-end handler

`FrontEndHandler::handle_request` from `src/src/front/front_end.rs`, after a
successful request decode (the decode itself is the codec's concern).  The
dispatcher and the authenticators are abstracted as functions, exactly the
trait objects the handler holds. -/

/-- An application name produced by an authenticator. -/
abbrev ApplicationName := Bytes

/-- `Authenticate::authenticate`: authentication bytes to an application name
or an error status. -/
abbrev Authenticator := Bytes → Except ResponseStatus ApplicationName

/-- A status-only response: the request header echoed with the given status
and an empty body (`Response::from_request_header`). -/
structure Response where
  req_header : RequestHeader
  status : ResponseStatus
  body : Bytes
  deriving DecidableEq, Repr

/-- `Response::from_request_header`: echo the header, set the status, empty
body. -/
def Response.from_request_header (h : RequestHeader) (s : ResponseStatus) :
    Response :=
  { req_header := h, status := s, body := [] }

/-- The authentication-and-dispatch stage of
`FrontEndHandler::handle_request`, for an already-decoded request:
`NoAuth` dispatches with no identity; otherwise the authenticator registered
for the header's `auth_type` runs, a missing authenticator answers
`AuthenticatorNotRegistered`, a failed one answers its error status, and a
successful one dispatches with the returned application name. -/
def FrontEndHandler.handle_decoded
    (authenticators : AuthType → Option Authenticator)
    (dispatch : Request → Option ApplicationName → Response)
    (request : Request) : Response :=
  if AuthType.NoAuth = request.header.auth_type then
    dispatch request none
  else
    match authenticators request.header.auth_type with
    | some authenticator =>
        match authenticator request.auth with
        | .ok app_name => dispatch request (some app_name)
        | .error status => Response.from_request_header request.header status
    | none =>
        Response.from_request_header request.header .AuthenticatorNotRegistered

/-- C7: for every decoded request — with the dispatcher held abstract, so a
response that does not depend on it proves the request was not dispatched —
`NoAuth` requests are dispatched with no identity; an unregistered `auth_type`
yields the status-only `AuthenticatorNotRegistered` response without dispatch;
a failing authenticator yields its error status without dispatch; and a
successful one dispatches with the returned `ApplicationName`. -/
theorem handle_decoded_auth_dispatch
    (authenticators : AuthType → Option Authenticator)
    (dispatch : Request → Option ApplicationName → Response)
    (request : Request) :
    (request.header.auth_type = .NoAuth →
      FrontEndHandler.handle_decoded authenticators dispatch request =
        dispatch request none) ∧
    (request.header.auth_type ≠ .NoAuth →
      authenticators request.header.auth_type = none →
      FrontEndHandler.handle_decoded authenticators dispatch request =
        Response.from_request_header request.header
          .AuthenticatorNotRegistered) ∧
    (∀ authenticator status, request.header.auth_type ≠ .NoAuth →
      authenticators request.header.auth_type = some authenticator →
      authenticator request.auth = .error status →
      FrontEndHandler.handle_decoded authenticators dispatch request =
        Response.from_request_header request.header status) ∧
    (∀ authenticator app_name, request.header.auth_type ≠ .NoAuth →
      authenticators request.header.auth_type = some authenticator →
      authenticator request.auth = .ok app_name →
      FrontEndHandler.handle_decoded authenticators dispatch request =
        dispatch request (some app_name)) := by
  refine ⟨?_, ?_, ?_, ?_⟩
  · intro hna
    simp [FrontEndHandler.handle_decoded, hna]
  · intro hna hnone
    have hne : AuthType.NoAuth ≠ request.header.auth_type := Ne.symm hna
    simp [FrontEndHandler.handle_decoded, hne, hnone]
  · intro authenticator status hna hsome herr
    have hne : AuthType.NoAuth ≠ request.header.auth_type := Ne.symm hna
    simp [FrontEndHandler.handle_decoded, hne, hsome, herr]
  · intro authenticator app_name hna hsome hok
    have hne : AuthType.NoAuth ≠ request.header.auth_type := Ne.symm hna
    simp [FrontEndHandler.handle_decoded, hne, hsome, hok]

/-- Witness for C7: a concrete two-authenticator registry (none for
`UnixPeerCredentials`; `Direct` succeeds on `[97]` and fails otherwise) and a
dispatcher echoing `Success`. -/
theorem handle_decoded_auth_dispatch_witness :
    (FrontEndHandler.handle_decoded
        (fun t => if t = .Direct then
          some (fun auth =>
            if auth = [97] then .ok [97] else .error .AuthenticationError)
          else none)
        (fun request _ => Response.from_request_header request.header .Success)
        ⟨⟨1, 0, .CoreProvider, 0, .Protobuf, .Protobuf, .NoAuth, 0, 0, 0⟩, [], []⟩ =
      Response.from_request_header
        ⟨1, 0, .CoreProvider, 0, .Protobuf, .Protobuf, .NoAuth, 0, 0, 0⟩
        .Success) ∧
    (FrontEndHandler.handle_decoded
        (fun t => if t = .Direct then
          some (fun auth =>
            if auth = [97] then .ok [97] else .error .AuthenticationError)
          else none)
        (fun request _ => Response.from_request_header request.header .Success)
        ⟨⟨1, 0, .CoreProvider, 0, .Protobuf, .Protobuf, .UnixPeerCredentials,
          0, 0, 0⟩, [], []⟩ =
      Response.from_request_header
        ⟨1, 0, .CoreProvider, 0, .Protobuf, .Protobuf, .UnixPeerCredentials,
         0, 0, 0⟩
        .AuthenticatorNotRegistered) ∧
    (FrontEndHandler.handle_decoded
        (fun t => if t = .Direct then
          some (fun auth =>
            if auth = [97] then .ok [97] else .error .AuthenticationError)
          else none)
        (fun request _ => Response.from_request_header request.header .Success)
        ⟨⟨1, 0, .CoreProvider, 0, .Protobuf, .Protobuf, .Direct, 0, 1, 0⟩,
         [], [98]⟩ =
      Response.from_request_header
        ⟨1, 0, .CoreProvider, 0, .Protobuf, .Protobuf, .Direct, 0, 1, 0⟩
        .AuthenticationError) ∧
    (FrontEndHandler.handle_decoded
        (fun t => if t = .Direct then
          some (fun auth =>
            if auth = [97] then .ok [97] else .error .AuthenticationError)
          else none)
        (fun request _ => Response.from_request_header request.header .Success)
        ⟨⟨1, 0, .CoreProvider, 0, .Protobuf, .Protobuf, .Direct, 0, 1, 0⟩,
         [], [97]⟩ =
      Response.from_request_header
        ⟨1, 0, .CoreProvider, 0, .Protobuf, .Protobuf, .Direct, 0, 1, 0⟩
        .Success) := by
  refine ⟨?_, ?_, ?_, ?_⟩
  · exact (handle_decoded_auth_dispatch _ _ _).1 rfl
  · exact (handle_decoded_auth_dispatch _ _ _).2.1 (by decide) (by rfl)
  · exact (handle_decoded_auth_dispatch _ _ _).2.2.1 _ .AuthenticationError
      (by decide) (by rfl) (by rfl)
  · exact (handle_decoded_auth_dispatch _ _ _).2.2.2 _ [97]
      (by decide) (by rfl) (by rfl)

/-! ## Request decoding and the body-length guard

Modelled from the spec: `Request::read_from_stream` with a size limit (its
source, `requests/request.rs`, is not under `src/`; `src/src/utils/
service_builder.rs` only configures the limit).  Wire layout from spec §6:
a 22-byte request header (after magic and header size), then `body_len` body
bytes and `auth_len` authentication bytes; before reading body and auth the
codec checks `body_len + auth_len ≤ limit` and rejects with
`BodyLenTooLarge`. -/

/-- `DEFAULT_BODY_LEN_LIMIT` from `src/src/utils/service_builder.rs`: 1 MiB. -/
def DEFAULT_BODY_LEN_LIMIT : Nat := 1 <<< 20

/-- `REQUEST_HDR_SIZE` (spec §6: 22 for requests). -/
def REQUEST_HDR_SIZE : Nat := 22

/-- Modelled from the spec: the raw wire fields of a request header
(spec §6 layout). -/
structure RawRequestHeader where
  version_maj : Nat
  version_min : Nat
  provider : Nat
  session : Nat
  content_type : Nat
  accept_type : Nat
  auth_type : Nat
  body_len : Nat
  auth_len : Nat
  opcode : Nat
  deriving DecidableEq, Repr

/-- All raw request-header fields fit their wire widths. -/
def RawRequestHeader.WF (h : RawRequestHeader) : Prop :=
  h.version_maj < 256 ∧ h.version_min < 256 ∧ h.provider < 256 ∧
  h.session < 256 ^ 8 ∧ h.content_type < 256 ∧ h.accept_type < 256 ∧
  h.auth_type < 256 ∧ h.body_len < 256 ^ 4 ∧ h.auth_len < 256 ^ 2 ∧
  h.opcode < 256 ^ 2

instance : DecidablePred RawRequestHeader.WF := fun h =>
  inferInstanceAs (Decidable (h.version_maj < 256 ∧ _ ∧ _ ∧ _ ∧ _ ∧ _ ∧ _ ∧
    _ ∧ _ ∧ _))

/-- The 22 serialised bytes of the request header fields, little-endian. -/
def serializeRequestFields (h : RawRequestHeader) : Bytes :=
  natToBytesLE 1 h.version_maj ++ (natToBytesLE 1 h.version_min ++
  (natToBytesLE 1 h.provider ++ (natToBytesLE 8 h.session ++
  (natToBytesLE 1 h.content_type ++ (natToBytesLE 1 h.accept_type ++
  (natToBytesLE 1 h.auth_type ++ (natToBytesLE 4 h.body_len ++
  (natToBytesLE 2 h.auth_len ++ natToBytesLE 2 h.opcode))))))))

/-- A serialised request header: magic, header size, then the fields. -/
def serializeRequestHeader (h : RawRequestHeader) : Bytes :=
  natToBytesLE 4 MAGIC_NUMBER ++ (natToBytesLE 2 REQUEST_HDR_SIZE ++
  serializeRequestFields h)

/-- Unmarshal the 22 field bytes of a request header. -/
def deserializeRequestFields (b : Bytes) : Option RawRequestHeader := do
  let (vmaj, b) ← readBytes 1 b
  let (vmin, b) ← readBytes 1 b
  let (prov, b) ← readBytes 1 b
  let (sess, b) ← readBytes 8 b
  let (ct, b) ← readBytes 1 b
  let (at_, b) ← readBytes 1 b
  let (aut, b) ← readBytes 1 b
  let (blen, b) ← readBytes 4 b
  let (alen, b) ← readBytes 2 b
  let (opc, _) ← readBytes 2 b
  pure ⟨bytesToNatLE vmaj, bytesToNatLE vmin, bytesToNatLE prov,
        bytesToNatLE sess, bytesToNatLE ct, bytesToNatLE at_,
        bytesToNatLE aut, bytesToNatLE blen, bytesToNatLE alen,
        bytesToNatLE opc⟩

/-- A decoded raw request. -/
structure RawRequest where
  header : RawRequestHeader
  body : Bytes
  auth : Bytes
  deriving DecidableEq, Repr

/-- Modelled from the spec: `Request::read_from_stream` with the configured
body-length limit.  Protocol violations (magic, header size, short reads,
unmarshalling) answer `InvalidHeader`; an oversize `body_len + auth_len`
answers `BodyLenTooLarge` before the body and auth payloads are read. -/
def Request.read_from_stream (limit : Nat) (s : Bytes) :
    Except ResponseStatus (RawRequest × Bytes) :=
  match readBytes 4 s with
  | none => .error .InvalidHeader
  | some (magic, s1) =>
      match readBytes 2 s1 with
      | none => .error .InvalidHeader
      | some (hs, s2) =>
          if bytesToNatLE magic ≠ MAGIC_NUMBER ∨
             bytesToNatLE hs ≠ REQUEST_HDR_SIZE then .error .InvalidHeader
          else
            match readBytes (bytesToNatLE hs) s2 with
            | none => .error .InvalidHeader
            | some (buf, s3) =>
                match deserializeRequestFields buf with
                | none => .error .InvalidHeader
                | some hdr =>
                    if hdr.body_len + hdr.auth_len > limit then
                      .error .BodyLenTooLarge
                    else
                      match readBytes hdr.body_len s3 with
                      | none => .error .InvalidHeader
                      | some (body, s4) =>
                          match readBytes hdr.auth_len s4 with
                          | none => .error .InvalidHeader
                          | some (auth, s5) => .ok (⟨hdr, body, auth⟩, s5)

set_option maxHeartbeats 1000000 in
/-- Unmarshalling the 22 request-header field bytes recovers every field. -/
theorem deserializeRequestFields_serializeRequestFields (h : RawRequestHeader)
    (hwf : h.WF) : deserializeRequestFields (serializeRequestFields h) = some h := by
  obtain ⟨h1, h2, h3, h4, h5, h6, h7, h8, h9, h10⟩ := hwf
  have e1 : bytesToNatLE (natToBytesLE 1 h.version_maj) = h.version_maj :=
    bytesToNatLE_natToBytesLE 1 _ (by simpa using h1)
  have e2 : bytesToNatLE (natToBytesLE 1 h.version_min) = h.version_min :=
    bytesToNatLE_natToBytesLE 1 _ (by simpa using h2)
  have e3 : bytesToNatLE (natToBytesLE 1 h.provider) = h.provider :=
    bytesToNatLE_natToBytesLE 1 _ (by simpa using h3)
  have e4 : bytesToNatLE (natToBytesLE 8 h.session) = h.session :=
    bytesToNatLE_natToBytesLE 8 _ h4
  have e5 : bytesToNatLE (natToBytesLE 1 h.content_type) = h.content_type :=
    bytesToNatLE_natToBytesLE 1 _ (by simpa using h5)
  have e6 : bytesToNatLE (natToBytesLE 1 h.accept_type) = h.accept_type :=
    bytesToNatLE_natToBytesLE 1 _ (by simpa using h6)
  have e7 : bytesToNatLE (natToBytesLE 1 h.auth_type) = h.auth_type :=
    bytesToNatLE_natToBytesLE 1 _ (by simpa using h7)
  have e8 : bytesToNatLE (natToBytesLE 4 h.body_len) = h.body_len :=
    bytesToNatLE_natToBytesLE 4 _ h8
  have e9 : bytesToNatLE (natToBytesLE 2 h.auth_len) = h.auth_len :=
    bytesToNatLE_natToBytesLE 2 _ h9
  have e10 : bytesToNatLE (natToBytesLE 2 h.opcode) = h.opcode :=
    bytesToNatLE_natToBytesLE 2 _ h10
  simp [deserializeRequestFields, serializeRequestFields, readBytes_exact,
    readBytes_all, natToBytesLE_length, e1, e2, e3, e4, e5, e6, e7, e8, e9, e10]

theorem serializeRequestFields_length (h : RawRequestHeader) :
    (serializeRequestFields h).length = REQUEST_HDR_SIZE := by
  simp [serializeRequestFields, natToBytesLE_length, REQUEST_HDR_SIZE]

/-- C6: a request whose declared `body_len + auth_len` exceeds the configured
limit is rejected with `BodyLenTooLarge` as soon as the header is decoded: the
rejection is the same whatever bytes follow the 28 header bytes, so the body
and auth payloads are never read or allocated. -/
theorem request_oversize_rejected_before_body (limit : Nat)
    (h : RawRequestHeader) (hwf : h.WF) (junk : Bytes)
    (hover : h.body_len + h.auth_len > limit) :
    Request.read_from_stream limit (serializeRequestHeader h ++ junk) =
      .error .BodyLenTooLarge := by
  have em : bytesToNatLE (natToBytesLE 4 MAGIC_NUMBER) = MAGIC_NUMBER :=
    bytesToNatLE_natToBytesLE 4 _ (by norm_num [MAGIC_NUMBER])
  have eh : bytesToNatLE (natToBytesLE 2 REQUEST_HDR_SIZE) = REQUEST_HDR_SIZE :=
    bytesToNatLE_natToBytesLE 2 _ (by norm_num [REQUEST_HDR_SIZE])
  rw [serializeRequestHeader, List.append_assoc, List.append_assoc,
    Request.read_from_stream]
  simp [readBytes_exact, natToBytesLE_length, em, eh,
    serializeRequestFields_length,
    deserializeRequestFields_serializeRequestFields h hwf, hover]

/-- Witness for C6: the spec's oversize scenario — limit 1 MiB, declared
`body_len` of 2 MiB — on an otherwise plausible Ping request header followed
by three junk bytes. -/
theorem request_oversize_rejected_before_body_witness :
    Request.read_from_stream DEFAULT_BODY_LEN_LIMIT
        (serializeRequestHeader ⟨1, 0, 0, 0, 0, 0, 1, 2097152, 0, 0⟩ ++
          [1, 2, 3]) = .error .BodyLenTooLarge :=
  request_oversize_rejected_before_body DEFAULT_BODY_LEN_LIMIT
    ⟨1, 0, 0, 0, 0, 0, 1, 2097152, 0, 0⟩ (by decide) [1, 2, 3]
    (by decide)

/-! ## Operations and the protobuf converter

`ProtobufConverter` from `src/interface/interface-rs/src/operations_protobuf/
mod.rs`, restricted to the `Ping` opcode — the only one in this snapshot's
`Opcode` and `ConvertOperation`/`ConvertResult` types.  The protobuf
serialisation of `OpPingProto`/`ResultPingProto` is modelled from the spec
(the prost-generated code and `convert_ping.rs` are not under `src/`): an
empty message for the operation, and two `uint32` varint fields
`(supp_version_maj, supp_version_min)` for the result, zero-valued fields
omitted, as protobuf does. -/

/-- `Opcode` from `src/interface/interface-rs/src/requests/mod.rs`. -/
inductive Opcode where
  | Ping
  deriving DecidableEq, Repr

/-- Modelled from the spec: `OpPing` carries no payload. -/
structure OpPing where
  deriving DecidableEq, Repr

/-- Modelled from the spec: `ResultPing` carries the wire protocol version
(`u8` fields in the native type). -/
structure ResultPing where
  supp_version_maj : Nat
  supp_version_min : Nat
  deriving DecidableEq, Repr

/-- `ConvertOperation` from `src/interface/interface-rs/src/operations/mod.rs`. -/
inductive ConvertOperation where
  | Ping (op : OpPing)
  deriving DecidableEq, Repr

/-- `ConvertResult` from `src/interface/interface-rs/src/operations/mod.rs`. -/
inductive ConvertResult where
  | Ping (result : ResultPing)
  deriving DecidableEq, Repr

/-- A protobuf `uint32` varint (LEB128, low groups first). -/
def encodeVarint (n : Nat) : Bytes :=
  if h : n < 128 then [n]
  else (n % 128 + 128) :: encodeVarint (n / 128)
  termination_by n
  decreasing_by omega

/-- Varint decoding, returning the value and the remaining bytes. -/
def decodeVarint : Bytes → Option (Nat × Bytes)
  | [] => none
  | b :: rest =>
      if b < 128 then some (b, rest)
      else
        match decodeVarint rest with
        | some (v, r) => some (v * 128 + (b - 128), r)
        | none => none

theorem decodeVarint_encodeVarint (n : Nat) (t : Bytes) :
    decodeVarint (encodeVarint n ++ t) = some (n, t) := by
  induction n using encodeVarint.induct with
  | case1 n h =>
      rw [encodeVarint, dif_pos h]
      simp [decodeVarint, h]
  | case2 n h ih =>
      rw [encodeVarint, dif_neg h]
      have hcond : ¬ (n % 128 + 128 < 128) := by omega
      simp only [List.cons_append, decodeVarint, if_neg hcond, List.append_eq]
      rw [ih]
      have hval : n / 128 * 128 + n % 128 = n := by omega
      simp [hval]

/-- Modelled from the spec: prost encoding of `ResultPingProto` — field 1 then
field 2, varint wire type, zero-valued fields omitted. -/
def encodeResultPing (maj minr : Nat) : Bytes :=
  (if maj = 0 then [] else 8 :: encodeVarint maj) ++
  (if minr = 0 then [] else 16 :: encodeVarint minr)

/-- Modelled from the spec: prost decoding of `ResultPingProto` restricted to
the canonical encodings `encodeResultPing` produces; absent fields default to
zero. -/
def decodeResultPing (l : Bytes) : Option (Nat × Nat) :=
  match l with
  | [] => some (0, 0)
  | 8 :: rest =>
      match decodeVarint rest with
      | some (maj, r2) =>
          match r2 with
          | [] => some (maj, 0)
          | 16 :: r3 =>
              match decodeVarint r3 with
              | some (minr, []) => some (maj, minr)
              | _ => none
          | _ => none
      | none => none
  | 16 :: rest =>
      match decodeVarint rest with
      | some (minr, []) => some (0, minr)
      | _ => none
  | _ => none

/-- Modelled from the spec: prost encoding of the empty `OpPingProto`. -/
def encodeOpPing : Bytes := []

/-- Modelled from the spec: prost decoding of `OpPingProto` (canonical
encodings only). -/
def decodeOpPing (l : Bytes) : Option OpPing :=
  match l with
  | [] => some ⟨⟩
  | _ => none

theorem decodeResultPing_encodeResultPing (maj minr : Nat) :
    decodeResultPing (encodeResultPing maj minr) = some (maj, minr) := by
  by_cases hmaj : maj = 0 <;> by_cases hminr : minr = 0
  · simp [encodeResultPing, hmaj, hminr, decodeResultPing]
  · subst hmaj
    have hd := decodeVarint_encodeVarint minr []
    simp only [List.append_nil] at hd
    simp [encodeResultPing, hminr, decodeResultPing, hd]
  · subst hminr
    have hd := decodeVarint_encodeVarint maj []
    simp only [List.append_nil] at hd
    simp [encodeResultPing, hmaj, decodeResultPing, hd]
  · have hd1 := decodeVarint_encodeVarint maj (16 :: encodeVarint minr)
    have hd2 := decodeVarint_encodeVarint minr []
    simp only [List.append_nil] at hd2
    simp [encodeResultPing, hmaj, hminr, decodeResultPing, hd1, hd2]

namespace ProtobufConverter

/-- `Convert::body_to_operation` of `ProtobufConverter`. -/
def body_to_operation (body : Bytes) (opcode : Opcode) :
    Except ResponseStatus ConvertOperation :=
  match opcode with
  | .Ping =>
      match decodeOpPing body with
      | some op => .ok (.Ping op)
      | none => .error .DeserializingBodyFailed

/-- `Convert::body_from_operation` of `ProtobufConverter`. -/
def body_from_operation : ConvertOperation → Except ResponseStatus Bytes
  | .Ping _ => .ok encodeOpPing

/-- `Convert::body_to_result` of `ProtobufConverter`, including the `u8`
conversion of `convert_ping` (out-of-range `uint32` values fail
deserialisation). -/
def body_to_result (body : Bytes) (opcode : Opcode) :
    Except ResponseStatus ConvertResult :=
  match opcode with
  | .Ping =>
      match decodeResultPing body with
      | some (maj, minr) =>
          if maj < 256 ∧ minr < 256 then .ok (.Ping ⟨maj, minr⟩)
          else .error .DeserializingBodyFailed
      | none => .error .DeserializingBodyFailed

/-- `Convert::body_from_result` of `ProtobufConverter`. -/
def body_from_result : ConvertResult → Except ResponseStatus Bytes
  | .Ping r => .ok (encodeResultPing r.supp_version_maj r.supp_version_min)

end ProtobufConverter

/-- The native result's fields fit the `u8` they come from. -/
def ConvertResult.WF : ConvertResult → Prop
  | .Ping r => r.supp_version_maj < 256 ∧ r.supp_version_min < 256

instance : DecidablePred ConvertResult.WF := fun r =>
  match r with
  | .Ping r => inferInstanceAs (Decidable (r.supp_version_maj < 256 ∧ _))

/-- C8: decode-after-encode is the identity — for every well-formed response
header through the wire codec, and for every operation and result value
through the protobuf converter under every opcode. -/
theorem encode_decode_roundtrip :
    (∀ h : ResponseHeader, h.WF →
      ResponseHeader.read_from_stream h.write_to_stream = .ok (h, [])) ∧
    (∀ (op : ConvertOperation) (o : Opcode) (body : Bytes),
      ProtobufConverter.body_from_operation op = .ok body →
      ProtobufConverter.body_to_operation body o = .ok op) ∧
    (∀ (r : ConvertResult) (o : Opcode) (body : Bytes), r.WF →
      ProtobufConverter.body_from_result r = .ok body →
      ProtobufConverter.body_to_result body o = .ok r) := by
  refine ⟨?_, ?_, ?_⟩
  · intro h hwf
    have := read_from_stream_write_to_stream h hwf []
    simpa using this
  · intro op o body henc
    cases op with
    | Ping p =>
        cases p
        cases o
        simp only [ProtobufConverter.body_from_operation,
          Except.ok.injEq] at henc
        subst henc
        rfl
  · intro r o body hwf henc
    cases r with
    | Ping p =>
        cases o
        simp only [ProtobufConverter.body_from_result, Except.ok.injEq] at henc
        subst henc
        obtain ⟨hmaj, hminr⟩ := hwf
        simp [ProtobufConverter.body_to_result,
          decodeResultPing_encodeResultPing, hmaj, hminr]

/-- Witness for C8: the concrete response-header test vector of `response.rs`
round-trips, as do the Ping operation and a `(1, 0)` Ping result. -/
theorem encode_decode_roundtrip_witness :
    ResponseHeader.read_from_stream
        (ResponseHeader.write_to_stream
          ⟨0xde, 0xf0, 0x00, 0x1122334455667788, 0x99, 3, 0xbbcc, 0xddee⟩) =
      .ok (⟨0xde, 0xf0, 0x00, 0x1122334455667788, 0x99, 3, 0xbbcc, 0xddee⟩, []) ∧
    ProtobufConverter.body_to_operation encodeOpPing .Ping = .ok (.Ping ⟨⟩) ∧
    ProtobufConverter.body_to_result (encodeResultPing 1 0) .Ping =
      .ok (.Ping ⟨1, 0⟩) := by
  refine ⟨?_, ?_, ?_⟩
  · exact encode_decode_roundtrip.1
      ⟨0xde, 0xf0, 0x00, 0x1122334455667788, 0x99, 3, 0xbbcc, 0xddee⟩ (by decide)
  · exact encode_decode_roundtrip.2.1 (.Ping ⟨⟩) .Ping encodeOpPing rfl
  · exact encode_decode_roundtrip.2.2 (.Ping ⟨1, 0⟩) .Ping (encodeResultPing 1 0)
      (by decide) rfl

end Parsec
